import Mathlib

/-!
# Verification of the project access-control core of test-case-management-be

Shallow embedding of the Go sources:
- `internal/models` (`ProjectAccess`, `Project`, `User` structs, `AccessLevel`)
- `ProjectAccessRepository` (SQL-backed CRUD; the database is modelled as
  explicit lists of rows in a `Db` record, `time.Now()` as an explicit `now`
  argument)
- `ProjectAccessService`, `ProjectService.IsOwner`
- `ProjectAccessHandler` (`GrantAccess` / `UpdateAccess` / `RevokeAccess`),
  with Gin JSON responses abstracted to a status outcome `HResp` plus the
  resulting database state.
-/

/-- `models.AccessLevel` (`"view"` / `"edit"`). -/
inductive AccessLevel where
  | view
  | edit
deriving DecidableEq, Repr

/-- `models.Project` row: `{id, name, description, owner_id, created_at, updated_at}`.
Timestamps are modelled as `Nat` ticks. -/
structure Project where
  id : Int
  name : String
  description : String
  owner_id : Int
  created_at : Nat
  updated_at : Nat
deriving DecidableEq, Repr

/-- `models.Role` (`admin` / `user` / `tester`). -/
inductive Role where
  | admin
  | user
  | tester
deriving DecidableEq, Repr

/-- `models.User` row, restricted to the columns the access-control core
reads (`ID`, `Role`); the remaining columns (username, email, password hash,
timestamps) are never consulted by the handlers or services under study. -/
structure User where
  id : Int
  role : Role
deriving DecidableEq, Repr

/-- `models.ProjectAccess` row: `{id, project_id, user_id, level, created_at, updated_at}`. -/
structure ProjectAccess where
  id : Int
  project_id : Int
  user_id : Int
  level : AccessLevel
  created_at : Nat
  updated_at : Nat
deriving DecidableEq, Repr

/-- The relational store: the `projects`, `users` and `project_access` tables
as lists of rows in insertion order, plus the auto-increment counter backing
`LastInsertId` for `project_access`. -/
structure Db where
  projects : List Project
  users : List User
  grants : List ProjectAccess
  nextAccessId : Int
deriving DecidableEq, Repr

/-- The sentinel errors of the repository layer:
`repository.ErrProjectNotFound`, `repository.ErrUserNotFound`,
`repository.ErrProjectAccessNotFound`, `repository.ErrProjectAccessExists`. -/
inductive RepoErr where
  | projectNotFound
  | userNotFound
  | accessNotFound
  | accessExists
deriving DecidableEq, Repr

/-- `ProjectRepository.GetByID`: `SELECT ... FROM projects WHERE id = ?`,
`sql.ErrNoRows ↦ ErrProjectNotFound`. -/
def projectGetByID (s : Db) (pid : Int) : Except RepoErr Project :=
  match s.projects.find? (fun p => p.id == pid) with
  | some p => .ok p
  | none => .error .projectNotFound

/-- `UserRepository.GetByID`: `SELECT ... FROM users WHERE id = ?`,
`sql.ErrNoRows ↦ ErrUserNotFound`. -/
def userGetByID (s : Db) (uid : Int) : Except RepoErr User :=
  match s.users.find? (fun u => u.id == uid) with
  | some u => .ok u
  | none => .error .userNotFound

/-- `ProjectAccessRepository.GetByID`: `SELECT ... FROM project_access WHERE id = ?`,
`sql.ErrNoRows ↦ ErrProjectAccessNotFound`. -/
def accessGetByID (s : Db) (aid : Int) : Except RepoErr ProjectAccess :=
  match s.grants.find? (fun g => g.id == aid) with
  | some g => .ok g
  | none => .error .accessNotFound

/-- The `SELECT COUNT(*) FROM project_access WHERE project_id = ? AND user_id = ?`
query used by `Create` and `HasViewAccess`. -/
def countGrantsFor (s : Db) (pid uid : Int) : Nat :=
  (s.grants.filter (fun g => g.project_id == pid && g.user_id == uid)).length

/-- `ProjectAccessRepository.Create`: duplicate check by `COUNT(*)` on
`(project_id, user_id)`, then `INSERT` with `created_at = updated_at = now`
and the auto-assigned id. On success returns the created row (the Go code
mutates `access` in place) and the new database state. -/
def accessRepoCreate (s : Db) (pid uid : Int) (lvl : AccessLevel) (now : Nat) :
    Except RepoErr (ProjectAccess × Db) :=
  if countGrantsFor s pid uid > 0 then
    .error .accessExists
  else
    let g : ProjectAccess :=
      { id := s.nextAccessId, project_id := pid, user_id := uid,
        level := lvl, created_at := now, updated_at := now }
    .ok (g, { s with grants := s.grants ++ [g], nextAccessId := s.nextAccessId + 1 })

/-- `ProjectAccessRepository.Update`: re-checks existence via `GetByID`, then
`UPDATE project_access SET level = ?, updated_at = ? WHERE id = ?` (every row
with that id is updated, as the SQL does) and sets `access.UpdatedAt = now`
on the returned record. -/
def accessRepoUpdate (s : Db) (a : ProjectAccess) (now : Nat) :
    Except RepoErr (ProjectAccess × Db) :=
  match accessGetByID s a.id with
  | .error e => .error e
  | .ok _ =>
      .ok ({ a with updated_at := now },
        { s with grants := s.grants.map (fun g =>
            if g.id == a.id then { g with level := a.level, updated_at := now } else g) })

/-- `ProjectAccessRepository.Delete`: existence check via `GetByID`, then
`DELETE FROM project_access WHERE id = ?`. -/
def accessRepoDelete (s : Db) (aid : Int) : Except RepoErr Db :=
  match accessGetByID s aid with
  | .error e => .error e
  | .ok _ => .ok { s with grants := s.grants.filter (fun g => !(g.id == aid)) }

/-- `ProjectAccessRepository.HasEditAccess`:
`COUNT(*) WHERE project_id = ? AND user_id = ? AND level = 'edit'` compared
with `0`. -/
def accessRepoHasEditAccess (s : Db) (pid uid : Int) : Bool :=
  decide (0 < (s.grants.filter
    (fun g => g.project_id == pid && g.user_id == uid && g.level == AccessLevel.edit)).length)

/-- `ProjectAccessRepository.HasViewAccess`:
`COUNT(*) WHERE project_id = ? AND user_id = ?` (any level) compared with `0`. -/
def accessRepoHasViewAccess (s : Db) (pid uid : Int) : Bool :=
  decide (0 < countGrantsFor s pid uid)

/-- `ProjectAccessRepository.GetProjectIDsByUserAccess`:
`SELECT project_id FROM project_access WHERE user_id = ?` (no ORDER BY, so
rows come back in table order). -/
def getProjectIDsByUserAccess (s : Db) (uid : Int) : List Int :=
  (s.grants.filter (fun g => g.user_id == uid)).map (fun g => g.project_id)

/-- Stable insertion of a project into a list sorted by `created_at`
descending (a later row overtakes an earlier one only when strictly newer,
matching a stable `ORDER BY created_at DESC`). -/
def insertByCreatedDesc (p : Project) : List Project → List Project
  | [] => [p]
  | q :: qs =>
      if q.created_at < p.created_at then p :: q :: qs
      else q :: insertByCreatedDesc p qs

/-- Sort projects by `created_at` descending (stable). -/
def sortByCreatedDesc : List Project → List Project
  | [] => []
  | p :: ps => insertByCreatedDesc p (sortByCreatedDesc ps)

/-- `ProjectRepository.ListByOwner`:
`SELECT ... FROM projects WHERE owner_id = ? ORDER BY created_at DESC`. -/
def listByOwner (s : Db) (ownerID : Int) : List Project :=
  sortByCreatedDesc (s.projects.filter (fun p => p.owner_id == ownerID))

/-- `ProjectService.IsOwner`: loads the project and compares `owner_id`. -/
def svcIsOwner (s : Db) (pid uid : Int) : Except RepoErr Bool :=
  match projectGetByID s pid with
  | .error e => .error e
  | .ok proj => .ok (proj.owner_id == uid)

/-- `ProjectAccessService.GrantAccess`: project-exists check, target-user
exists check, then `ProjectAccessRepository.Create`. -/
def svcGrantAccess (s : Db) (projectID targetUserID : Int) (lvl : AccessLevel) (now : Nat) :
    Except RepoErr (ProjectAccess × Db) :=
  match projectGetByID s projectID with
  | .error e => .error e
  | .ok _ =>
      match userGetByID s targetUserID with
      | .error e => .error e
      | .ok _ => accessRepoCreate s projectID targetUserID lvl now

/-- `ProjectAccessService.UpdateAccess`: loads the grant by id, overwrites its
`Level` with the requested one, then `ProjectAccessRepository.Update`. -/
def svcUpdateAccess (s : Db) (accessID : Int) (lvl : AccessLevel) (now : Nat) :
    Except RepoErr (ProjectAccess × Db) :=
  match accessGetByID s accessID with
  | .error e => .error e
  | .ok access => accessRepoUpdate s { access with level := lvl } now

/-- `ProjectAccessService.RevokeAccess`: delegates to
`ProjectAccessRepository.Delete`. -/
def svcRevokeAccess (s : Db) (accessID : Int) : Except RepoErr Db :=
  accessRepoDelete s accessID

/-- `ProjectAccessService.HasEditAccess`: owner short-circuit, then the
repository `level = 'edit'` lookup. -/
def svcHasEditAccess (s : Db) (pid uid : Int) : Except RepoErr Bool :=
  match projectGetByID s pid with
  | .error e => .error e
  | .ok proj =>
      if proj.owner_id == uid then .ok true
      else .ok (accessRepoHasEditAccess s pid uid)

/-- `ProjectAccessService.HasViewAccess`: owner short-circuit, then the
repository any-grant lookup. -/
def svcHasViewAccess (s : Db) (pid uid : Int) : Except RepoErr Bool :=
  match projectGetByID s pid with
  | .error e => .error e
  | .ok proj =>
      if proj.owner_id == uid then .ok true
      else .ok (accessRepoHasViewAccess s pid uid)

/-- The resolution step in `GetAccessibleProjects`'s loop body: look the
project up by id, keep it on success, skip it (`continue`) on error. -/
def resolveProject (s : Db) (pid : Int) : Option Project :=
  match projectGetByID s pid with
  | .ok p => some p
  | .error _ => none

/-- `ProjectAccessService.GetAccessibleProjects`, translated branch for
branch from the Go source: page/pageSize normalization, owned projects,
granted ids, the two early returns, the owned-id dedup filter, skip-on-error
resolution of granted ids, concatenation, and the literal
`start`/`end`-clamped slicing (`all[start:end]` is `(take end).drop start`). -/
def svcGetAccessibleProjects (s : Db) (userID : Int) (page0 pageSize0 : Int) :
    Except RepoErr (List Project) :=
  let page := if page0 < 1 then 1 else page0
  let pageSize := if pageSize0 < 1 then 10 else pageSize0
  let ownedProjects := listByOwner s userID
  let accessibleProjectIDs := getProjectIDsByUserAccess s userID
  if accessibleProjectIDs.length == 0 && ownedProjects.length == 0 then
    .ok []
  else
    let ownedIDs := ownedProjects.map (fun p => p.id)
    let uniqueAccessibleProjectIDs :=
      accessibleProjectIDs.filter (fun pid => !(ownedIDs.contains pid))
    if uniqueAccessibleProjectIDs.length == 0 then
      let start := ((page - 1) * pageSize).toNat
      if ownedProjects.length ≤ start then .ok []
      else
        let stop :=
          if ownedProjects.length < start + pageSize.toNat then ownedProjects.length
          else start + pageSize.toNat
        .ok ((ownedProjects.take stop).drop start)
    else
      let accessibleProjects := uniqueAccessibleProjectIDs.filterMap (resolveProject s)
      let allProjects := ownedProjects ++ accessibleProjects
      let start := ((page - 1) * pageSize).toNat
      if allProjects.length ≤ start then .ok []
      else
        let stop :=
          if allProjects.length < start + pageSize.toNat then allProjects.length
          else start + pageSize.toNat
        .ok ((allProjects.take stop).drop start)

/-- The HTTP status classes the `ProjectAccessHandler` responds with
(`gin` JSON bodies abstracted away): 200 OK / 201 Created / 400 Bad Request
(validation) / 403 Forbidden (permission denied) / 404 Not Found /
409 Conflict / 500 Internal Server Error. -/
inductive HResp where
  | ok
  | created
  | badRequest
  | forbidden
  | notFound
  | conflict
  | internalError
deriving DecidableEq, Repr

/-- `ProjectAccessHandler.GrantAccess` after request parsing: ownership check
against the path-parameter project id (`ErrProjectNotFound ↦ 404`, other
errors `↦ 500`, non-owner `↦ 403`), the self-grant guard (`400`), then the
service call (`ErrProjectAccessExists ↦ 409`, any other error `↦ 500`).
Returns the response class and the resulting database state. -/
def handlerGrantAccess (s : Db) (projectID : Int) (requester : User)
    (targetUserID : Int) (lvl : AccessLevel) (now : Nat) : HResp × Db :=
  match svcIsOwner s projectID requester.id with
  | .error e => if e == .projectNotFound then (.notFound, s) else (.internalError, s)
  | .ok isOwner =>
      if !isOwner then (.forbidden, s)
      else if targetUserID == requester.id then (.badRequest, s)
      else
        match svcGrantAccess s projectID targetUserID lvl now with
        | .error e => if e == .accessExists then (.conflict, s) else (.internalError, s)
        | .ok (_, s') => (.created, s')

/-- `ProjectAccessHandler.UpdateAccess` after request parsing: ownership check
against the path-parameter project id, then the service update keyed only by
the access id (`ErrProjectAccessNotFound ↦ 404`, other errors `↦ 500`). -/
def handlerUpdateAccess (s : Db) (projectID accessID : Int) (requester : User)
    (lvl : AccessLevel) (now : Nat) : HResp × Db :=
  match svcIsOwner s projectID requester.id with
  | .error e => if e == .projectNotFound then (.notFound, s) else (.internalError, s)
  | .ok isOwner =>
      if !isOwner then (.forbidden, s)
      else
        match svcUpdateAccess s accessID lvl now with
        | .error e => if e == .accessNotFound then (.notFound, s) else (.internalError, s)
        | .ok (_, s') => (.ok, s')

/-- `ProjectAccessHandler.RevokeAccess` after request parsing: ownership check
against the path-parameter project id, then the service delete keyed only by
the access id. -/
def handlerRevokeAccess (s : Db) (projectID accessID : Int) (requester : User) :
    HResp × Db :=
  match svcIsOwner s projectID requester.id with
  | .error e => if e == .projectNotFound then (.notFound, s) else (.internalError, s)
  | .ok isOwner =>
      if !isOwner then (.forbidden, s)
      else
        match svcRevokeAccess s accessID with
        | .error e => if e == .accessNotFound then (.notFound, s) else (.internalError, s)
        | .ok s' => (.ok, s')

/-- Modelled from the spec (§4.2), for the refinement claims about
`GetAccessibleProjects`: the combined visible list is the user's owned
projects first, in most-recently-created-first order, followed by the
resolution of every granted project id that is not already owned, in the
order the ids were fetched, skipping any id whose project lookup errors. -/
def specCombinedVisible (s : Db) (u : Int) : List Project :=
  let owned := listByOwner s u
  let grantedIds := getProjectIDsByUserAccess s u
  let extraIds := grantedIds.filter (fun pid => !((owned.map (fun p => p.id)).contains pid))
  owned ++ extraIds.filterMap (resolveProject s)

/-- The Go pagination block (`start`/`end` computation with clamping and the
early empty return) equals dropping the offset and taking a page. -/
theorem slice_clamp (l : List Project) (start ps : Nat) :
    (if l.length ≤ start then (Except.ok [] : Except RepoErr (List Project))
     else Except.ok ((l.take (if l.length < start + ps then l.length else start + ps)).drop start)) =
    Except.ok ((l.drop start).take ps) := by
  by_cases h : l.length ≤ start
  · rw [if_pos h, List.drop_eq_nil_iff.mpr h, List.take_nil]
  · rw [if_neg h]
    by_cases h2 : l.length < start + ps
    · rw [if_pos h2, List.take_length]
      have hle : (l.drop start).length ≤ ps := by
        rw [List.length_drop]; omega
      rw [List.take_of_length_le hle]
    · rw [if_neg h2, List.drop_take]
      have hps : start + ps - start = ps := by omega
      rw [hps]

/-- `GetAccessibleProjects` always returns the `[offset, offset+pageSize)`
slice of the combined visible list, with `page`/`pageSize` normalized. -/
theorem accessible_characterization (s : Db) (u page0 pageSize0 : Int) :
    svcGetAccessibleProjects s u page0 pageSize0 =
      Except.ok (((specCombinedVisible s u).drop
          ((((if page0 < 1 then 1 else page0) - 1) * (if pageSize0 < 1 then 10 else pageSize0)).toNat)).take
        ((if pageSize0 < 1 then 10 else pageSize0).toNat)) := by
  simp only [svcGetAccessibleProjects, specCombinedVisible]
  split
  · next hcond =>
      rw [Bool.and_eq_true] at hcond
      obtain ⟨h1, h2⟩ := hcond
      have h1' : getProjectIDsByUserAccess s u = [] := by
        simpa using h1
      have h2' : listByOwner s u = [] := by
        simpa using h2
      simp [h1', h2']
  · next hcond =>
      split
      · next huniq =>
          have huniq' : (getProjectIDsByUserAccess s u).filter
              (fun pid => !(((listByOwner s u).map (fun p => p.id)).contains pid)) = [] := by
            simpa using huniq
          rw [huniq', List.filterMap_nil, List.append_nil]
          exact slice_clamp _ _ _
      · next huniq =>
          exact slice_clamp _ _ _

/-- A `COUNT(*) > 0` check over filtered rows is the same as `List.any`. -/
theorem length_filter_pos_eq_any {α : Type} (l : List α) (f : α → Bool) :
    decide (0 < (l.filter f).length) = l.any f := by
  induction l with
  | nil => rfl
  | cons x xs ih =>
      cases hx : f x with
      | true => simp [List.filter_cons, hx]
      | false => simpa [List.filter_cons, hx] using ih

/-- C4: for an existing project, `HasViewAccess` returns true exactly when the
user is the owner or holds any grant (of either level) for the project; for a
missing project it fails with `ErrProjectNotFound` instead of answering
`false`. -/
theorem hasViewAccess_correct (s : Db) (p u : Int) :
    (∀ proj, projectGetByID s p = .ok proj →
       svcHasViewAccess s p u =
         .ok (proj.owner_id == u ||
              s.grants.any (fun g => g.project_id == p && g.user_id == u)))
    ∧ (projectGetByID s p = .error .projectNotFound →
       svcHasViewAccess s p u = .error .projectNotFound) := by
  constructor
  · intro proj hproj
    simp only [svcHasViewAccess, hproj]
    cases ho : (proj.owner_id == u) with
    | true => simp [ho]
    | false =>
        simp only [ho, if_neg (by simp : ¬(false = true)), Bool.false_or]
        rw [accessRepoHasViewAccess, countGrantsFor, length_filter_pos_eq_any]
  · intro hproj
    simp only [svcHasViewAccess, hproj]

/-- C5: for an existing project, `HasEditAccess` returns true exactly when the
user is the owner or holds an `edit`-level grant for the project (a `view`
grant does not suffice); for a missing project it fails with
`ErrProjectNotFound`. -/
theorem hasEditAccess_correct (s : Db) (p u : Int) :
    (∀ proj, projectGetByID s p = .ok proj →
       svcHasEditAccess s p u =
         .ok (proj.owner_id == u ||
              s.grants.any (fun g =>
                g.project_id == p && g.user_id == u && g.level == AccessLevel.edit)))
    ∧ (projectGetByID s p = .error .projectNotFound →
       svcHasEditAccess s p u = .error .projectNotFound) := by
  constructor
  · intro proj hproj
    simp only [svcHasEditAccess, hproj]
    cases ho : (proj.owner_id == u) with
    | true => simp [ho]
    | false =>
        simp only [ho, if_neg (by simp : ¬(false = true)), Bool.false_or]
        rw [accessRepoHasEditAccess, length_filter_pos_eq_any]
  · intro hproj
    simp only [svcHasEditAccess, hproj]

/-- Fixture: project 1 owned by user 10; user 20 holds a view-level grant. -/
def wProj : Project :=
  { id := 1, name := "p", description := "", owner_id := 10, created_at := 1, updated_at := 1 }

/-- Fixture grant: user 20 may view project 1. -/
def wGrant : ProjectAccess :=
  { id := 1, project_id := 1, user_id := 20, level := .view, created_at := 2, updated_at := 2 }

/-- Fixture database for the access-check witnesses. -/
def wDb : Db :=
  { projects := [wProj],
    users := [{ id := 10, role := .user }, { id := 20, role := .tester }],
    grants := [wGrant],
    nextAccessId := 2 }

/-- Witness for C4 at a concrete store: the view check on the existing
project 1 follows the owner-or-any-grant rule, and on the missing project 99
it errors with `projectNotFound`. -/
theorem hasViewAccess_correct_witness :
    svcHasViewAccess wDb 1 20 =
      .ok (wProj.owner_id == 20 ||
           wDb.grants.any (fun g => g.project_id == 1 && g.user_id == 20)) ∧
    svcHasViewAccess wDb 99 20 = .error .projectNotFound :=
  ⟨(hasViewAccess_correct wDb 1 20).1 wProj (by rfl),
   (hasViewAccess_correct wDb 99 20).2 (by rfl)⟩

/-- Witness for C5 at a concrete store: the edit check on the existing
project 1 follows the owner-or-edit-grant rule, and on the missing project 99
it errors with `projectNotFound`. -/
theorem hasEditAccess_correct_witness :
    svcHasEditAccess wDb 1 20 =
      .ok (wProj.owner_id == 20 ||
           wDb.grants.any (fun g =>
             g.project_id == 1 && g.user_id == 20 && g.level == AccessLevel.edit)) ∧
    svcHasEditAccess wDb 99 10 = .error .projectNotFound :=
  ⟨(hasEditAccess_correct wDb 1 20).1 wProj (by rfl),
   (hasEditAccess_correct wDb 99 10).2 (by rfl)⟩

/-- Fixture: a project owned by user 50, created at tick `i`. -/
def ownedP (i : Nat) : Project :=
  { id := (i : Int), name := "", description := "", owner_id := 50, created_at := i, updated_at := 0 }

/-- Fixture: a project owned by user 60, created at tick `i`. -/
def otherP (i : Nat) : Project :=
  { id := (i : Int), name := "", description := "", owner_id := 60, created_at := i, updated_at := 0 }

/-- Fixture database: user 50 owns projects 1..3 and holds two grants to
user 60's projects 11 and 12, plus a stray grant row for their own
project 1. -/
def comboDb : Db :=
  { projects := [ownedP 1, ownedP 2, ownedP 3, otherP 11, otherP 12],
    users := [{ id := 50, role := .user }, { id := 60, role := .user }],
    grants :=
      [{ id := 1, project_id := 1, user_id := 50, level := .view, created_at := 0, updated_at := 0 },
       { id := 2, project_id := 11, user_id := 50, level := .view, created_at := 0, updated_at := 0 },
       { id := 3, project_id := 12, user_id := 50, level := .edit, created_at := 0, updated_at := 0 }],
    nextAccessId := 4 }

/-- C2: `GetAccessibleProjects` pages over the combined list that puts the
owned projects first in most-recently-created order, followed by the
granted projects in fetched-id order with owned ids removed before
resolution; concretely, a user owning 3 projects with 2 distinct
non-overlapping grants (and a stray grant on an owned project) gets exactly
those 5 projects, owned first, the doubly-covered project appearing once. -/
theorem accessibleProjects_owned_first :
    (∀ (s : Db) (u page0 pageSize0 : Int),
        svcGetAccessibleProjects s u page0 pageSize0 =
          Except.ok (((specCombinedVisible s u).drop
              ((((if page0 < 1 then 1 else page0) - 1) *
                (if pageSize0 < 1 then 10 else pageSize0)).toNat)).take
            ((if pageSize0 < 1 then 10 else pageSize0).toNat)))
    ∧ svcGetAccessibleProjects comboDb 50 1 10 =
        .ok [ownedP 3, ownedP 2, ownedP 1, otherP 11, otherP 12] := by
  refine ⟨accessible_characterization, ?_⟩
  rfl

/-- Fixture: one of 12 projects owned by user 77, created at tick `i`. -/
def pagedP (i : Nat) : Project :=
  { id := (i : Int), name := "", description := "", owner_id := 77, created_at := i, updated_at := 0 }

/-- Fixture database: user 77 owns 12 projects and holds no grants, so the
combined visible list has exactly 12 entries. -/
def pagedDb : Db :=
  { projects := [pagedP 1, pagedP 2, pagedP 3, pagedP 4, pagedP 5, pagedP 6,
                 pagedP 7, pagedP 8, pagedP 9, pagedP 10, pagedP 11, pagedP 12],
    users := [{ id := 77, role := .user }],
    grants := [],
    nextAccessId := 1 }

/-- C3: non-positive `page`/`pageSize` normalize to 1 and 10, and the result
is the `[offset, offset+pageSize)` slice clamped to the combined length:
with 12 visible projects and pageSize 5, page 3 yields exactly 2 projects
and page 4 yields the empty list. -/
theorem accessibleProjects_pagination :
    (∀ (s : Db) (u page0 pageSize0 : Int),
        svcGetAccessibleProjects s u page0 pageSize0 =
          svcGetAccessibleProjects s u (if page0 < 1 then 1 else page0)
            (if pageSize0 < 1 then 10 else pageSize0))
    ∧ svcGetAccessibleProjects pagedDb 77 3 5 = .ok [pagedP 2, pagedP 1]
    ∧ svcGetAccessibleProjects pagedDb 77 4 5 = .ok []
    ∧ svcGetAccessibleProjects pagedDb 77 0 (-3) =
        .ok [pagedP 12, pagedP 11, pagedP 10, pagedP 9, pagedP 8, pagedP 7,
             pagedP 6, pagedP 5, pagedP 4, pagedP 3] := by
  refine ⟨?_, by rfl, by rfl, by rfl⟩
  intro s u page0 pageSize0
  rw [accessible_characterization, accessible_characterization]
  by_cases hp : page0 < 1 <;> by_cases hq : pageSize0 < 1 <;>
    simp [hp, hq]

/-- Fixture: a resolvable project granted to user 9. -/
def goodP : Project :=
  { id := 100, name := "", description := "", owner_id := 8, created_at := 5, updated_at := 0 }

/-- Fixture database: user 9 owns nothing and holds one grant to the
existing project 100 and one dangling grant to the missing project 200. -/
def danglingDb : Db :=
  { projects := [goodP],
    users := [{ id := 8, role := .user }, { id := 9, role := .user }],
    grants :=
      [{ id := 1, project_id := 100, user_id := 9, level := .view, created_at := 0, updated_at := 0 },
       { id := 2, project_id := 200, user_id := 9, level := .view, created_at := 0, updated_at := 0 }],
    nextAccessId := 3 }

/-- C9: `GetAccessibleProjects` never returns an error — a granted id whose
project lookup fails is silently skipped — and a user with no owned projects
and no grants gets the empty list; concretely user 9's dangling grant to the
missing project 200 is dropped while project 100 is still listed. -/
theorem accessibleProjects_skip_dangling :
    (∀ (s : Db) (u page0 pageSize0 : Int),
        (svcGetAccessibleProjects s u page0 pageSize0).isOk = true)
    ∧ svcGetAccessibleProjects danglingDb 9 1 10 = .ok [goodP]
    ∧ svcGetAccessibleProjects danglingDb 999 1 10 = .ok [] := by
  refine ⟨?_, by rfl, by rfl⟩
  intro s u page0 pageSize0
  rw [accessible_characterization]
  rfl

/-- C10: a successful `UpdateAccess` returns the grant with only `level` and
`updated_at` renewed, and the resulting store maps exactly the rows with the
targeted id to that renewal — `id`, `project_id`, `user_id`, `created_at`,
every other grant, and the projects and users tables are unchanged. -/
theorem updateAccess_frame (s : Db) (aid : Int) (lvl : AccessLevel) (now : Nat)
    (g : ProjectAccess) (hg : s.grants.find? (fun x => x.id == aid) = some g) :
    svcUpdateAccess s aid lvl now =
      .ok ({ g with level := lvl, updated_at := now },
        { s with grants := s.grants.map (fun x =>
            if x.id == aid then { x with level := lvl, updated_at := now } else x) }) := by
  have hid : g.id = aid := by
    have hpred := List.find?_some hg
    simpa using hpred
  have h1 : accessGetByID s aid = .ok g := by
    unfold accessGetByID
    rw [hg]
  unfold svcUpdateAccess
  rw [h1]
  unfold accessRepoUpdate
  dsimp only
  rw [hid, h1]

/-- Witness for C10: updating grant 1 of the fixture store to `edit` at
tick 7 rewrites exactly that row's level and `updated_at`. -/
theorem updateAccess_frame_witness :
    svcUpdateAccess wDb 1 .edit 7 =
      .ok ({ wGrant with level := .edit, updated_at := 7 },
        { wDb with grants := wDb.grants.map (fun x =>
            if x.id == 1 then { x with level := .edit, updated_at := 7 } else x) }) :=
  updateAccess_frame wDb 1 .edit 7 wGrant (by rfl)

/-- C8 counterexample: requester 7 is not an admin and owns no project, yet
revoking an access record of the missing project 1 answers Not Found, not
Permission Denied. -/
theorem nonowner_missing_project_counterexample :
    ({ id := 7, role := .user } : User).role ≠ Role.admin ∧
    handlerRevokeAccess { projects := [], users := [], grants := [], nextAccessId := 1 }
        1 5 { id := 7, role := .user } =
      (.notFound, { projects := [], users := [], grants := [], nextAccessId := 1 }) ∧
    HResp.notFound ≠ HResp.forbidden :=
  ⟨by decide, by rfl, by decide⟩

/-- C8 (amended): provided the path project exists, a requester who is not
its owner and not an admin gets Permission Denied from grant, update and
revoke alike — whatever access id or target user is named, existing or not —
and the store is unchanged. (When the path project is missing, the handlers
answer Not Found instead, which is the counterexample to the unamended
claim.) -/
theorem nonowner_mutations_forbidden (s : Db) (pid aid target : Int)
    (requester : User) (proj : Project) (lvl : AccessLevel) (now : Nat)
    (hp : projectGetByID s pid = .ok proj)
    (hown : ¬(proj.owner_id = requester.id))
    (hrole : requester.role ≠ Role.admin) :
    handlerGrantAccess s pid requester target lvl now = (.forbidden, s) ∧
    handlerUpdateAccess s pid aid requester lvl now = (.forbidden, s) ∧
    handlerRevokeAccess s pid aid requester = (.forbidden, s) := by
  have hio : svcIsOwner s pid requester.id = .ok false := by
    unfold svcIsOwner
    rw [hp]
    simp [hown]
  refine ⟨?_, ?_, ?_⟩
  · unfold handlerGrantAccess
    rw [hio]
    rfl
  · unfold handlerUpdateAccess
    rw [hio]
    rfl
  · unfold handlerRevokeAccess
    rw [hio]
    rfl

/-- Witness for C8 (amended): user 20 (a tester, not an admin) does not own
project 1 of the fixture store, and all three mutating endpoints answer
Permission Denied without touching the store. -/
theorem nonowner_mutations_forbidden_witness :
    handlerGrantAccess wDb 1 { id := 20, role := .tester } 30 .view 3 = (.forbidden, wDb) ∧
    handlerUpdateAccess wDb 1 99 { id := 20, role := .tester } .edit 3 = (.forbidden, wDb) ∧
    handlerRevokeAccess wDb 1 99 { id := 20, role := .tester } = (.forbidden, wDb) :=
  nonowner_mutations_forbidden wDb 1 99 30 { id := 20, role := .tester } wProj .view 3
    (by rfl) (by decide) (by decide)

/-- Fixture: project 1, owned by user 100. -/
def projOwnA : Project :=
  { id := 1, name := "", description := "", owner_id := 100, created_at := 0, updated_at := 0 }

/-- Fixture: project 2, owned by user 200. -/
def projOwnB : Project :=
  { id := 2, name := "", description := "", owner_id := 200, created_at := 0, updated_at := 0 }

/-- Fixture: grant 5 gives user 300 view access to project 2. -/
def grantOnB : ProjectAccess :=
  { id := 5, project_id := 2, user_id := 300, level := .view, created_at := 0, updated_at := 0 }

/-- Fixture store for the cross-project mutation scenario. -/
def crossDb : Db :=
  { projects := [projOwnA, projOwnB],
    users := [{ id := 100, role := .user }, { id := 200, role := .user },
              { id := 300, role := .user }],
    grants := [grantOnB],
    nextAccessId := 6 }

/-- C1 (bug evidence): the ownership check runs against the path-parameter
project only and is never compared with the grant's own `project_id`.
Requester 100 owns project 1 but not project 2; by naming project 1 in the
path and grant 5 (which belongs to project 2) as the access id, they
successfully update and revoke a grant of a project they do not own. -/
theorem cross_project_mutation_succeeds :
    projOwnB.owner_id ≠ ({ id := 100, role := .user } : User).id ∧
    grantOnB.project_id = projOwnB.id ∧
    handlerUpdateAccess crossDb 1 5 { id := 100, role := .user } .edit 9 =
      (.ok, { crossDb with grants := [{ grantOnB with level := .edit, updated_at := 9 }] }) ∧
    handlerRevokeAccess crossDb 1 5 { id := 100, role := .user } =
      (.ok, { crossDb with grants := [] }) := by
  refine ⟨by decide, by rfl, by rfl, by rfl⟩

/-- C6: when a grant for `(P, U)` already exists — with project `P` and the
target user both present, the requester being `P`'s owner, and the target
not the requester, so that nothing else can fail first — granting `(P, U)`
again answers Conflict and returns the store unchanged: the existing grant's
level is not overwritten. -/
theorem grant_duplicate_conflict (s : Db) (proj : Project) (requester : User)
    (target : Int) (tu : User) (lvl : AccessLevel) (now : Nat)
    (hp : projectGetByID s proj.id = .ok proj)
    (hown : proj.owner_id = requester.id)
    (hne : ¬(target = requester.id))
    (hu : userGetByID s target = .ok tu)
    (hex : s.grants.any (fun g => g.project_id == proj.id && g.user_id == target) = true) :
    handlerGrantAccess s proj.id requester target lvl now = (.conflict, s) := by
  have hcount : countGrantsFor s proj.id target > 0 := by
    have hlen := length_filter_pos_eq_any s.grants
      (fun g => g.project_id == proj.id && g.user_id == target)
    rw [hex] at hlen
    exact of_decide_eq_true hlen
  have hio : svcIsOwner s proj.id requester.id = .ok true := by
    unfold svcIsOwner
    rw [hp]
    dsimp only
    rw [hown]
    simp
  have hga : svcGrantAccess s proj.id target lvl now = .error .accessExists := by
    unfold svcGrantAccess
    rw [hp, hu]
    unfold accessRepoCreate
    rw [if_pos hcount]
  unfold handlerGrantAccess
  rw [hio]
  have hne' : (target == requester.id) = false := by
    simpa using hne
  simp only [Bool.not_true, Bool.false_eq_true, if_false, hne', hga]
  rfl

/-- Witness for C6: in the fixture store, owner 10 granting user 20 access
to project 1 again answers Conflict and leaves the store as it was. -/
theorem grant_duplicate_conflict_witness :
    handlerGrantAccess wDb 1 { id := 10, role := .user } 20 .edit 4 = (.conflict, wDb) := by
  have h := grant_duplicate_conflict wDb wProj { id := 10, role := .user } 20
    { id := 20, role := .tester } .edit 4 (by rfl) (by decide) (by decide) (by rfl) (by rfl)
  simpa using h

/-- Inversion for `ProjectService.IsOwner`: a boolean answer means the
project was loaded and the answer compares its `owner_id` with the user. -/
theorem svcIsOwner_ok {s : Db} {pid uid : Int} {b : Bool}
    (h : svcIsOwner s pid uid = .ok b) :
    ∃ proj, projectGetByID s pid = .ok proj ∧ (proj.owner_id == uid) = b := by
  unfold svcIsOwner at h
  split at h
  · exact absurd h (by simp)
  · next proj heq =>
      simp only [Except.ok.injEq] at h
      exact ⟨proj, heq, h⟩

/-- A successful `GrantAccess` appends exactly one grant row, carrying the
requested project and user ids, and touches nothing else in the store. -/
theorem svcGrantAccess_ok {s : Db} {pid target : Int} {lvl : AccessLevel} {now : Nat}
    {a : ProjectAccess} {s' : Db}
    (h : svcGrantAccess s pid target lvl now = .ok (a, s')) :
    s'.projects = s.projects ∧ s'.users = s.users ∧
    s'.grants = s.grants ++ [a] ∧ a.project_id = pid ∧ a.user_id = target := by
  unfold svcGrantAccess at h
  split at h
  · exact absurd h (by simp)
  · split at h
    · exact absurd h (by simp)
    · unfold accessRepoCreate at h
      split at h
      · exact absurd h (by simp)
      · simp only [Except.ok.injEq, Prod.mk.injEq] at h
        obtain ⟨ha, hs'⟩ := h
        subst ha
        subst hs'
        exact ⟨rfl, rfl, rfl, rfl, rfl⟩

/-- `ProjectRepository.GetByID` reads only the projects table. -/
theorem projectGetByID_projects_congr {s s' : Db} (h : s'.projects = s.projects)
    (pid : Int) : projectGetByID s' pid = projectGetByID s pid := by
  unfold projectGetByID
  rw [h]

/-- The data-model invariant that no grant row names the owner of its own
project. -/
def noOwnerGrants (s : Db) : Prop :=
  ∀ g ∈ s.grants, ∀ proj, projectGetByID s g.project_id = .ok proj →
    proj.owner_id ≠ g.user_id

/-- C7: an owner's self-grant is rejected as a validation failure (Bad
Request) with the store unchanged, and the grant endpoint preserves the
invariant that no grant's `user_id` equals its project's `owner_id` — any
row it creates is for a target distinct from the requester, who must be the
project's owner. -/
theorem self_grant_rejected :
    (∀ (s : Db) (pid : Int) (requester : User) (lvl : AccessLevel) (now : Nat)
        (proj : Project),
        projectGetByID s pid = .ok proj → proj.owner_id = requester.id →
        handlerGrantAccess s pid requester requester.id lvl now = (.badRequest, s))
    ∧ (∀ (s : Db) (pid target : Int) (requester : User) (lvl : AccessLevel) (now : Nat),
        noOwnerGrants s →
        noOwnerGrants (handlerGrantAccess s pid requester target lvl now).2) := by
  constructor
  · intro s pid requester lvl now proj hp hown
    unfold handlerGrantAccess svcIsOwner
    rw [hp]
    dsimp only
    rw [hown]
    simp
  · intro s pid target requester lvl now hinv
    unfold handlerGrantAccess
    cases hio : svcIsOwner s pid requester.id with
    | error e => cases e <;> exact hinv
    | ok isOwner =>
        cases isOwner with
        | false => exact hinv
        | true =>
            cases htr : (target == requester.id) with
            | true => exact hinv
            | false =>
                cases hga : svcGrantAccess s pid target lvl now with
                | error e => cases e <;> exact hinv
                | ok res =>
                    obtain ⟨a, s'⟩ := res
                    obtain ⟨hprojs, husers, hgrants, hapid, hauid⟩ := svcGrantAccess_ok hga
                    obtain ⟨proj, hp, hb⟩ := svcIsOwner_ok hio
                    show noOwnerGrants s'
                    intro g hg pr hpr
                    rw [projectGetByID_projects_congr hprojs] at hpr
                    rw [hgrants] at hg
                    rcases List.mem_append.mp hg with hold | hnew
                    · exact hinv g hold pr hpr
                    · have hga' : g = a := by simpa using hnew
                      subst hga'
                      rw [hapid, hp] at hpr
                      injection hpr with hpe
                      have howner : pr.owner_id = requester.id := by
                        rw [← hpe]
                        exact eq_of_beq hb
                      have hneq : target ≠ requester.id := by simpa using htr
                      rw [hauid, howner]
                      intro hcontra
                      exact hneq hcontra.symm

/-- Witness for C7: owner 10's self-grant on project 1 of the fixture store
answers Bad Request with the store unchanged, and a successful grant to
user 20 preserves the no-owner-grant invariant. -/
theorem self_grant_rejected_witness :
    handlerGrantAccess wDb 1 { id := 10, role := .user } 10 .view 5 = (.badRequest, wDb) ∧
    noOwnerGrants (handlerGrantAccess wDb 1 { id := 10, role := .user } 20 .edit 5).2 := by
  constructor
  · exact self_grant_rejected.1 wDb 1 { id := 10, role := .user } .view 5 wProj
      (by rfl) (by decide)
  · refine self_grant_rejected.2 wDb 1 20 { id := 10, role := .user } .edit 5 ?_
    intro g hg proj hp
    have hgw : g = wGrant := by simpa [wDb] using hg
    subst hgw
    have hok : (Except.ok wProj : Except RepoErr Project) = .ok proj := hp
    injection hok with hpe
    subst hpe
    decide
